import Mathlib

/-!
Verification of the trace-analysis core (`src/analyzer/general_analyzer.cc`)
against its natural-language specification.

The development shallowly embeds the two analyses of the source file:

* `analyzeDependTypes` — the Dependency Classifier (lines 44–60), which walks
  the trace vector and classifies every request of the selected direction as
  independent / singly-dependent / multiply-dependent by looking its id up in
  the centric map.  The C++ function reads the map through `std::map::count`
  and `operator[]`; since `operator[]` inserts a default value when the key is
  absent, the embedding threads the map state explicitly (`mapCount`,
  `mapBracket`, `classifyStep`) so that "the map is unchanged" is a theorem
  rather than a modelling assumption.  The trace vector itself is only ever
  iterated by value (`for (auto trace : *vTraceData)`), so it is consumed
  read-only by construction.
* `analyzeHotWrite` — the Hot-Write Simulator (lines 74–129), which for every
  write key of the write-centric map allocates a per-page counter array over
  the write's page span, increments the counters over the intersection of each
  dependent read's page span with the write's span, flattens all counter
  arrays into one sequence, and summarises that sequence as a histogram
  (the `countDuplicate` map of the source).
* `analyze` — the driver (lines 131–155), which runs the classifier once per
  direction from zero-initialised counters and then the simulator.

Machine integers (`int32_t`, `int64_t`) are modelled as `Nat`, except where
the C++ subtraction can go negative (`readNum` in the simulator loop), which
is modelled as `Int` with the loop running `readNum.toNat` times — exactly the
`for (int i = 0; i < readNum; i++)` semantics.  `PAGE_SIZE` is defined outside
the translation unit; every page computation takes it as the parameter `psz`.
-/

/-- One record of the trace vector (`TraceData` in the source): its id (equal
to its position in the vector), its direction flag, its start LBA (`sLBA`) and
its length in blocks (`nLB`). -/
structure TraceData where
  id : Nat
  isRead : Bool
  sLBA : Nat
  nLB : Nat
deriving DecidableEq

/-- A centric dependency map, `std::map<id_t, std::set<id_t>>`: association
list from a request id to the list of dependent request ids. -/
abbrev CentricMap : Type := List (Nat × List Nat)

/-- `mCentric->count(trace.id)`: whether the id is a key of the map. -/
def mapCount (m : CentricMap) (k : Nat) : Bool :=
  (m.find? (fun p => p.1 == k)).isSome

/-- Ordered insertion of a fresh key with an empty (default-constructed) set,
as `std::map::operator[]` performs on a missing key. -/
def insertKeySorted (m : CentricMap) (k : Nat) : CentricMap :=
  match m with
  | [] => [(k, [])]
  | p :: rest =>
    if k < p.1 then (k, []) :: p :: rest
    else if k == p.1 then p :: rest
    else p :: insertKeySorted rest k

/-- `(*mCentric)[trace.id]`: `std::map::operator[]`, returning the mapped set
and the possibly-extended map (a missing key is inserted with an empty set). -/
def mapBracket (m : CentricMap) (k : Nat) : List Nat × CentricMap :=
  match m.find? (fun p => p.1 == k) with
  | some p => (p.2, m)
  | none => ([], insertKeySorted m k)

/-- Pure lookup of a key's dependent set (used only in specifications). -/
def lookupSet (m : CentricMap) (k : Nat) : Option (List Nat) :=
  (m.find? (fun p => p.1 == k)).map Prod.snd

/-- The three classifier counters (`indep`, `depShort`, `depLong`). -/
structure DependCounts where
  indep : Nat
  depShort : Nat
  depLong : Nat
deriving DecidableEq

/-- The body of the classifier loop (lines 48–59 of the source) for a single
trace record: requests of the other direction are skipped; otherwise the id is
looked up with `count`, and on a hit `operator[]` reads the set, incrementing
`depLong` when its size exceeds 1 and `depShort` otherwise; on a miss `indep`
is incremented. -/
def classifyStep (b : Bool) (mc : CentricMap × DependCounts) (t : TraceData) :
    CentricMap × DependCounts :=
  if t.isRead == b then
    if mapCount mc.1 t.id then
      let sm := mapBracket mc.1 t.id
      if 1 < sm.1.length then
        (sm.2, ⟨mc.2.indep, mc.2.depShort, mc.2.depLong + 1⟩)
      else
        (sm.2, ⟨mc.2.indep, mc.2.depShort + 1, mc.2.depLong⟩)
    else
      (mc.1, ⟨mc.2.indep + 1, mc.2.depShort, mc.2.depLong⟩)
  else
    mc

/-- `analyzeDependTypes` (lines 44–60): fold of `classifyStep` over the trace
vector, threading the map (mutable through `operator[]` in C++) and the three
counters. -/
def analyzeDependTypes (v : List TraceData) (m : CentricMap) (b : Bool)
    (c : DependCounts) : CentricMap × DependCounts :=
  v.foldl (classifyStep b) (m, c)

/-- Specification predicate: a request of the selected direction whose id is
not a key of the map (the claim's "independent" case). -/
def classIndep (m : CentricMap) (b : Bool) (t : TraceData) : Bool :=
  t.isRead == b && !(mapCount m t.id)

/-- Specification predicate: a request of the selected direction whose
dependent set has size exactly 1 (the claim's "singly-dependent" case). -/
def classSingle (m : CentricMap) (b : Bool) (t : TraceData) : Bool :=
  t.isRead == b &&
    (match lookupSet m t.id with
     | some s => decide (s.length = 1)
     | none => false)

/-- Specification predicate: a request of the selected direction whose
dependent set has size greater than 1 ("multiply-dependent"); this is also
exactly the source's `depLong` branch condition. -/
def classMulti (m : CentricMap) (b : Bool) (t : TraceData) : Bool :=
  t.isRead == b &&
    (match lookupSet m t.id with
     | some s => decide (1 < s.length)
     | none => false)

/-- The source's `depShort` branch condition: a present key whose set has size
at most 1 (this includes the degenerate empty set). -/
def codeShort (m : CentricMap) (b : Bool) (t : TraceData) : Bool :=
  t.isRead == b &&
    (match lookupSet m t.id with
     | some s => decide (s.length ≤ 1)
     | none => false)

/-- `(*vTraceData)[i]`: the trace record at position `i` (ids are positions;
out-of-range access is undefined behaviour in C++ and modelled by a default
record, which no claim relies on). -/
def traceAt (v : List TraceData) (i : Nat) : TraceData :=
  v.getD i ⟨0, false, 0, 0⟩

/-- `sLBA / PAGE_SIZE` for the record at position `i` (line 80 / line 94). -/
def pageStartOf (v : List TraceData) (psz i : Nat) : Nat :=
  (traceAt v i).sLBA / psz

/-- `(sLBA + nLB) / PAGE_SIZE` for the record at position `i`
(lines 81–83 / 95–96). -/
def pageEndOf (v : List TraceData) (psz i : Nat) : Nat :=
  ((traceAt v i).sLBA + (traceAt v i).nLB) / psz

/-- `pageNum = pageEnd - pageStart + 1` (line 84); `pageEnd ≥ pageStart`
always holds, so `Nat` subtraction agrees with the `int64_t` one. -/
def pageNumOf (v : List TraceData) (psz i : Nat) : Nat :=
  pageEndOf v psz i - pageStartOf v psz i + 1

/-- `readCounts[i]++` for a single index: increment position `i` of the
counter list, no-op when out of range (in bounds in every reachable call). -/
def incrAt : List Nat → Nat → List Nat
  | [], _ => []
  | x :: xs, 0 => (x + 1) :: xs
  | x :: xs, n + 1 => x :: incrAt xs n

/-- The loop `for (int i = 0; i < readNum; i++) readCounts[readOffset + i]++`
(lines 104–106): increment `n` consecutive counters starting at `off`. -/
def incrRange : List Nat → Nat → Nat → List Nat
  | l, _, 0 => l
  | l, off, n + 1 => incrRange (incrAt l off) (off + 1) n

/-- The body of the read loop (lines 93–107) for one dependent read `r` of a
write whose span is `[pageStart, pageEnd]`: compute the read's own page span,
intersect it with the write's span, and increment the counters of the
overlapping pages.  `readNum` is an `int64_t` that is negative when the spans
do not intersect, so it is modelled as `Int` and the loop runs
`readNum.toNat` times. -/
def readStep (v : List TraceData) (psz pageStart pageEnd : Nat)
    (counts : List Nat) (r : Nat) : List Nat :=
  let readStartReal := pageStartOf v psz r
  let readEndReal := pageEndOf v psz r
  let readStartOverlap := max pageStart readStartReal
  let readEndOverlap := min pageEnd readEndReal
  let readOffset := readStartOverlap - pageStart
  let readNum : Int := (readEndOverlap : Int) - (readStartOverlap : Int) + 1
  incrRange counts readOffset readNum.toNat

/-- One iteration of the write loop (lines 77–112): allocate a zeroed counter
array over the write's page span and run the read loop over the write's
dependent set. -/
def simulateWrite (v : List TraceData) (psz w : Nat) (reads : List Nat) :
    List Nat :=
  reads.foldl (readStep v psz (pageStartOf v psz w) (pageEndOf v psz w))
    (List.replicate (pageNumOf v psz w) 0)

/-- `analyzeHotWrite`'s accumulation phase (lines 76–113): the flat
`readCountsTotal` sequence, one entry per (write, page) pair, in map-key
order. -/
def analyzeHotWrite (v : List TraceData) (psz : Nat) (m : CentricMap) :
    List Nat :=
  m.foldl (fun tot p => tot ++ simulateWrite v psz p.1 p.2) []

/-- Largest value of the flat sequence (0 for the empty sequence). -/
def maxCount (l : List Nat) : Nat :=
  l.foldr max 0

/-- The `countDuplicate` histogram (lines 115–117) in its printed form
(lines 120–128): the distinct observed count values in ascending order, each
paired with its number of occurrences in the flat sequence. -/
def histogram (l : List Nat) : List (Nat × Nat) :=
  ((List.range (maxCount l + 1)).filter (fun x => decide (x ∈ l))).map
    (fun x => (x, l.count x))

/-- The three numeric results of a full run of `analyze`. -/
structure AnalyzeResult where
  readBD : DependCounts
  writeBD : DependCounts
  hist : List (Nat × Nat)
deriving DecidableEq

/-- The driver `analyze` (lines 131–155): run the classifier for reads against
the read-centric map and for writes against the write-centric map, both from
zero-initialised counters, then the hot-write simulator on the write-centric
map.  The maps are threaded as state exactly as the C++ passes them by
pointer; the `pageNum` parameter of the C++ driver is unused there and kept
here for fidelity. -/
def analyze (v : List TraceData) (pageNum psz : Nat) (mr mw : CentricMap) :
    AnalyzeResult × CentricMap × CentricMap :=
  let r := analyzeDependTypes v mr true ⟨0, 0, 0⟩
  let w := analyzeDependTypes v mw false ⟨0, 0, 0⟩
  (⟨r.2, w.2, histogram (analyzeHotWrite v psz w.1)⟩, r.1, w.1)

lemma mapBracket_of_count (m : CentricMap) (k : Nat) (h : mapCount m k = true) :
    (mapBracket m k).2 = m := by
  unfold mapCount at h
  unfold mapBracket
  cases hf : m.find? fun p => p.1 == k with
  | none => rw [hf] at h; simp at h
  | some p => rfl

lemma classifyStep_eq (b : Bool) (m : CentricMap) (c : DependCounts)
    (t : TraceData) :
    classifyStep b (m, c) t =
      (m, ⟨c.indep + (if classIndep m b t then 1 else 0),
           c.depShort + (if codeShort m b t then 1 else 0),
           c.depLong + (if classMulti m b t then 1 else 0)⟩) := by
  unfold classifyStep classIndep codeShort classMulti mapCount lookupSet
    mapBracket
  cases hf : m.find? fun p => p.1 == t.id with
  | none => cases hb : t.isRead == b <;> simp [hf, hb]
  | some p =>
    by_cases hlen : 1 < p.2.length
    · have h2 : ¬ p.2.length ≤ 1 := Nat.not_le.mpr hlen
      cases hb : t.isRead == b <;> simp [hf, hb, hlen, h2]
    · have h2 : p.2.length ≤ 1 := Nat.not_lt.mp hlen
      cases hb : t.isRead == b <;> simp [hf, hb, hlen, h2]

lemma analyzeDependTypes_eq (v : List TraceData) (m : CentricMap) (b : Bool)
    (c : DependCounts) :
    analyzeDependTypes v m b c =
      (m, ⟨c.indep + v.countP (classIndep m b),
           c.depShort + v.countP (codeShort m b),
           c.depLong + v.countP (classMulti m b)⟩) := by
  induction v generalizing c with
  | nil => simp [analyzeDependTypes]
  | cons t v ih =>
    show analyzeDependTypes v (classifyStep b (m, c) t).1 b
        (classifyStep b (m, c) t).2 = _
    simp only [classifyStep_eq]
    rw [ih]
    cases h1 : classIndep m b t <;> cases h2 : codeShort m b t <;>
      cases h3 : classMulti m b t <;>
        simp [List.countP_cons, h1, h2, h3] <;> omega

lemma incrAt_length (l : List Nat) (i : Nat) : (incrAt l i).length = l.length := by
  induction l generalizing i with
  | nil => rfl
  | cons x xs ih =>
    cases i with
    | zero => rfl
    | succ n => simp [incrAt, ih]

lemma incrRange_length (l : List Nat) (off n : Nat) :
    (incrRange l off n).length = l.length := by
  induction n generalizing l off with
  | zero => rfl
  | succ n ih => simp [incrRange, ih, incrAt_length]

lemma readStep_length (v : List TraceData) (psz a b : Nat) (counts : List Nat)
    (r : Nat) : (readStep v psz a b counts r).length = counts.length := by
  unfold readStep
  exact incrRange_length _ _ _

lemma foldl_readStep_length (v : List TraceData) (psz a b : Nat)
    (reads : List Nat) (counts : List Nat) :
    (reads.foldl (readStep v psz a b) counts).length = counts.length := by
  induction reads generalizing counts with
  | nil => rfl
  | cons r rs ih => simp [List.foldl_cons, ih, readStep_length]

lemma simulateWrite_length (v : List TraceData) (psz w : Nat)
    (reads : List Nat) :
    (simulateWrite v psz w reads).length = pageNumOf v psz w := by
  unfold simulateWrite
  rw [foldl_readStep_length]
  exact List.length_replicate _ _

lemma analyzeHotWrite_foldl_length (v : List TraceData) (psz : Nat)
    (m : CentricMap) (acc : List Nat) :
    (m.foldl (fun tot p => tot ++ simulateWrite v psz p.1 p.2) acc).length
      = acc.length + (m.map fun p => pageNumOf v psz p.1).sum := by
  induction m generalizing acc with
  | nil => simp
  | cons p m ih =>
    simp only [List.foldl_cons, ih, List.map_cons, List.sum_cons,
      List.length_append, simulateWrite_length]
    omega

lemma analyzeHotWrite_length (v : List TraceData) (psz : Nat) (m : CentricMap) :
    (analyzeHotWrite v psz m).length
      = (m.map fun p => pageNumOf v psz p.1).sum := by
  unfold analyzeHotWrite
  rw [analyzeHotWrite_foldl_length]
  simp

lemma le_maxCount (l : List Nat) (x : Nat) (h : x ∈ l) : x ≤ maxCount l := by
  induction l with
  | nil => cases h
  | cons a l ih =>
    show x ≤ max a (maxCount l)
    cases h with
    | head => exact Nat.le_max_left _ _
    | tail _ h2 => exact le_trans (ih h2) (Nat.le_max_right _ _)

lemma sum_filter_range (N : Nat) (p : Nat → Bool) (f : Nat → Nat) :
    (((List.range N).filter p).map f).sum
      = ∑ i in Finset.range N, if p i then f i else 0 := by
  induction N with
  | zero => rfl
  | succ n ih =>
    rw [List.range_succ, List.filter_append, List.map_append, List.sum_append,
      ih, Finset.sum_range_succ]
    cases hp : p n <;> simp [hp]

lemma sum_count_range (l : List Nat) (N : Nat) (h : ∀ x ∈ l, x < N) :
    (∑ i in Finset.range N, l.count i) = l.length := by
  induction l with
  | nil => simp
  | cons a l ih =>
    have ha : a ∈ Finset.range N :=
      Finset.mem_range.mpr (h a (List.mem_cons_self a l))
    have hsub : ∀ x ∈ l, x < N := fun x hx => h x (List.mem_cons_of_mem a hx)
    simp only [List.count_cons, List.length_cons, Finset.sum_add_distrib,
      ih hsub]
    congr 1
    simp only [beq_iff_eq]
    rw [Finset.sum_ite_eq (Finset.range N) a (fun _ => 1), if_pos ha]

lemma incrAt_getD (l : List Nat) (i j : Nat) :
    (incrAt l i).getD j 0
      = l.getD j 0 + if i = j ∧ j < l.length then 1 else 0 := by
  induction l generalizing i j with
  | nil => simp [incrAt]
  | cons x xs ih =>
    cases i with
    | zero =>
      cases j with
      | zero => simp [incrAt]
      | succ j => simp [incrAt]
    | succ n =>
      cases j with
      | zero => simp [incrAt]
      | succ j =>
        simp only [incrAt, List.getD_cons_succ, ih, List.length_cons]
        split_ifs <;> omega

lemma incrRange_getD (l : List Nat) (off n j : Nat) :
    (incrRange l off n).getD j 0
      = l.getD j 0
          + if off ≤ j ∧ j < off + n ∧ j < l.length then 1 else 0 := by
  induction n generalizing l off with
  | zero =>
    show l.getD j 0 = _
    split_ifs <;> omega
  | succ n ih =>
    show (incrRange (incrAt l off) (off + 1) n).getD j 0 = _
    rw [ih, incrAt_getD, incrAt_length]
    split_ifs <;> omega

lemma pageStartOf_le_pageEndOf (v : List TraceData) (psz i : Nat) :
    pageStartOf v psz i ≤ pageEndOf v psz i :=
  Nat.div_le_div_right (Nat.le_add_right _ _)

lemma histogram_sum (l : List Nat) :
    ((histogram l).map Prod.snd).sum = l.length := by
  unfold histogram
  rw [List.map_map, sum_filter_range]
  have hcongr : ∀ i ∈ Finset.range (maxCount l + 1),
      (if decide (i ∈ l) then (Prod.snd ∘ fun x => (x, l.count x)) i else 0)
        = l.count i := by
    intro i _
    by_cases hi : i ∈ l
    · simp [hi]
    · simp [hi, List.count_eq_zero_of_not_mem hi]
  rw [Finset.sum_congr rfl hcongr]
  exact sum_count_range l _ (fun x hx => Nat.lt_succ_of_le (le_maxCount l x hx))

lemma codeShort_eq_classSingle (m : CentricMap) (b : Bool) (t : TraceData)
    (hinv : ∀ p ∈ m, p.2 ≠ ([] : List Nat)) :
    codeShort m b t = classSingle m b t := by
  unfold codeShort classSingle lookupSet
  cases hf : m.find? fun p => p.1 == t.id with
  | none => rfl
  | some p =>
    have hne : p.2 ≠ [] := hinv p (List.mem_of_find?_eq_some hf)
    have hpos : 0 < p.2.length := List.length_pos.mpr hne
    have h1 : (p.2.length ≤ 1) = (p.2.length = 1) :=
      propext ⟨fun h => by omega, fun h => by omega⟩
    simp [h1]

lemma countP_partition (v : List TraceData) (m : CentricMap) (b : Bool) :
    v.countP (classIndep m b) + v.countP (codeShort m b)
        + v.countP (classMulti m b)
      = v.countP (fun t => t.isRead == b) := by
  induction v with
  | nil => rfl
  | cons t v ih =>
    simp only [List.countP_cons]
    have hone : (if classIndep m b t then 1 else 0)
        + (if codeShort m b t then 1 else 0)
        + (if classMulti m b t then 1 else 0)
        = if t.isRead == b then 1 else 0 := by
      unfold classIndep codeShort classMulti mapCount lookupSet
      cases hf : m.find? fun p => p.1 == t.id <;>
        cases hb : t.isRead == b <;>
          simp [hf, hb] <;> split_ifs <;> omega
    omega

/-- Claim C1: for every request whose `isRead` flag matches the requested
direction, the classifier counts it independent when its id is not a key of
the centric map, singly-dependent when its dependent set has size exactly
1, and multiply-dependent when the set has size greater than 1; requests of
the opposite direction are not counted (each counter only adds matching
requests of its own category).  Stated under the spec's input invariant that
a present key's dependent set is non-empty. -/
theorem claim1_classifier_branch_counts (v : List TraceData) (m : CentricMap)
    (b : Bool) (c : DependCounts)
    (hinv : ∀ p ∈ m, p.2 ≠ ([] : List Nat)) :
    ((analyzeDependTypes v m b c).2).indep
        = c.indep + v.countP (classIndep m b)
    ∧ ((analyzeDependTypes v m b c).2).depShort
        = c.depShort + v.countP (classSingle m b)
    ∧ ((analyzeDependTypes v m b c).2).depLong
        = c.depLong + v.countP (classMulti m b) := by
  rw [analyzeDependTypes_eq]
  refine ⟨rfl, ?_, rfl⟩
  have h : v.countP (codeShort m b) = v.countP (classSingle m b) :=
    List.countP_congr fun t _ => by rw [codeShort_eq_classSingle m b t hinv]
  simp [h]

/-- Witness for C1: a concrete trace with one independent read, one
singly-dependent read, one multiply-dependent read and one write that is of
the opposite direction and hence not counted. -/
theorem claim1_classifier_branch_counts_inst :
    ((analyzeDependTypes
        [⟨0, true, 0, 1⟩, ⟨1, true, 0, 1⟩, ⟨2, true, 0, 1⟩, ⟨3, false, 0, 1⟩]
        [(1, [5]), (2, [5, 6])] true ⟨0, 0, 0⟩).2).indep
      = 0 + List.countP (classIndep [(1, [5]), (2, [5, 6])] true)
          [⟨0, true, 0, 1⟩, ⟨1, true, 0, 1⟩, ⟨2, true, 0, 1⟩, ⟨3, false, 0, 1⟩]
    ∧ ((analyzeDependTypes
        [⟨0, true, 0, 1⟩, ⟨1, true, 0, 1⟩, ⟨2, true, 0, 1⟩, ⟨3, false, 0, 1⟩]
        [(1, [5]), (2, [5, 6])] true ⟨0, 0, 0⟩).2).depShort
      = 0 + List.countP (classSingle [(1, [5]), (2, [5, 6])] true)
          [⟨0, true, 0, 1⟩, ⟨1, true, 0, 1⟩, ⟨2, true, 0, 1⟩, ⟨3, false, 0, 1⟩]
    ∧ ((analyzeDependTypes
        [⟨0, true, 0, 1⟩, ⟨1, true, 0, 1⟩, ⟨2, true, 0, 1⟩, ⟨3, false, 0, 1⟩]
        [(1, [5]), (2, [5, 6])] true ⟨0, 0, 0⟩).2).depLong
      = 0 + List.countP (classMulti [(1, [5]), (2, [5, 6])] true)
          [⟨0, true, 0, 1⟩, ⟨1, true, 0, 1⟩, ⟨2, true, 0, 1⟩, ⟨3, false, 0, 1⟩] :=
  claim1_classifier_branch_counts
    [⟨0, true, 0, 1⟩, ⟨1, true, 0, 1⟩, ⟨2, true, 0, 1⟩, ⟨3, false, 0, 1⟩]
    [(1, [5]), (2, [5, 6])] true ⟨0, 0, 0⟩ (by decide)

/-- Claim C2 (counterexample): a read whose id is a key of the map with an
empty dependent set is counted singly-dependent (`depShort`), not
independent — `std::map::count` reports the key as present and the
`size() > 1` test fails, so the `depShort` branch runs; the claim's
"counted as independent, never as singly-dependent" is false on the code. -/
theorem claim2_empty_set_counterexample :
    ((analyzeDependTypes [⟨0, true, 0, 1⟩] [(0, [])] true ⟨0, 0, 0⟩).2).indep
        = 0
    ∧ ((analyzeDependTypes [⟨0, true, 0, 1⟩] [(0, [])] true
          ⟨0, 0, 0⟩).2).depShort = 1 := by
  decide

/-- Claim C2 (amended): a request of the selected direction whose id is
present in the map with an empty dependent set is counted singly-dependent,
never independent or multiply-dependent. -/
theorem claim2_empty_set_counted_depShort (m : CentricMap) (b : Bool)
    (c : DependCounts) (t : TraceData) (hb : t.isRead = b)
    (hl : lookupSet m t.id = some []) :
    classifyStep b (m, c) t = (m, ⟨c.indep, c.depShort + 1, c.depLong⟩) := by
  unfold lookupSet at hl
  cases hf : m.find? fun p => p.1 == t.id with
  | none => rw [hf] at hl; simp at hl
  | some p =>
    rw [hf] at hl
    simp only [Option.map_some', Option.some.injEq] at hl
    unfold classifyStep mapCount mapBracket
    rw [hf]
    simp [hb, hl]

/-- Witness for the amended C2: the concrete empty-set entry of the
counterexample is classified into `depShort`. -/
theorem claim2_empty_set_counted_depShort_inst :
    classifyStep true ([(0, ([] : List Nat))], (⟨0, 0, 0⟩ : DependCounts))
        ⟨0, true, 0, 1⟩
      = ([(0, [])], ⟨0, 0 + 1, 0⟩) :=
  claim2_empty_set_counted_depShort [(0, [])] true ⟨0, 0, 0⟩ ⟨0, true, 0, 1⟩
    rfl rfl

/-- Claim C4: run from the driver's zero-initialised counters, the three
classifier outputs sum exactly to the number of requests of the selected
direction in the trace; every matching request falls into exactly one of the
three branches. -/
theorem claim4_counts_sum_to_total (v : List TraceData) (m : CentricMap)
    (b : Bool) :
    ((analyzeDependTypes v m b ⟨0, 0, 0⟩).2).indep
        + ((analyzeDependTypes v m b ⟨0, 0, 0⟩).2).depShort
        + ((analyzeDependTypes v m b ⟨0, 0, 0⟩).2).depLong
      = v.countP (fun t => t.isRead == b) := by
  rw [analyzeDependTypes_eq]
  simpa using countP_partition v m b

/-- Claim C5: the sum of the histogram's occurrence totals over all distinct
count values equals the sum, over every write id that is a key of the
write-centric map, of that write's page-span length `pageEnd - pageStart + 1`
— every (qualifying write, page) pair contributes exactly one entry to the
flat sequence the histogram summarises. -/
theorem claim5_histogram_total (v : List TraceData) (psz : Nat)
    (m : CentricMap) :
    ((histogram (analyzeHotWrite v psz m)).map Prod.snd).sum
      = (m.map fun p => pageNumOf v psz p.1).sum := by
  rw [histogram_sum, analyzeHotWrite_length]

/-- Claim C8: the classifier has no side effect on the centric map: although
every matching id is looked up with `std::map::count` and, on a hit, read
through `operator[]`, the map after a full run is exactly the input map (in
particular `operator[]`'s insert-on-miss never fires).  The trace vector is
iterated by value and never written, and the only other state touched is the
three counters returned. -/
theorem claim8_map_unchanged (v : List TraceData) (m : CentricMap) (b : Bool)
    (c : DependCounts) :
    (analyzeDependTypes v m b c).1 = m := by
  rw [analyzeDependTypes_eq]

/-- Claim C9: the full analysis is deterministic and idempotent: running
`analyze` a second time on the state left by a first run (same trace, same
`PAGE_SIZE`, the maps as the first run left them) produces exactly the same
breakdowns, histogram, and final state — no mutable state is carried from
one run to the next. -/
theorem claim9_analyze_idempotent (v : List TraceData) (pn psz : Nat)
    (mr mw : CentricMap) :
    analyze v pn psz (analyze v pn psz mr mw).2.1 (analyze v pn psz mr mw).2.2
      = analyze v pn psz mr mw := by
  have h1 : (analyze v pn psz mr mw).2.1 = mr := by
    unfold analyze
    simp [analyzeDependTypes_eq]
  have h2 : (analyze v pn psz mr mw).2.2 = mw := by
    unfold analyze
    simp [analyzeDependTypes_eq]
  rw [h1, h2]

/-- Claim C10: the classifier accumulates into the caller-supplied counters:
for every initial counter triple the final value of each counter is its entry
value plus the count the classifier produces from zero; and the driver
`analyze` does pass zero-initialised counters, so its breakdowns are exactly
the from-zero counts. -/
theorem claim10_counters_accumulate (v : List TraceData) (pn psz : Nat)
    (mr mw m : CentricMap) (b : Bool) (c : DependCounts) :
    ((analyzeDependTypes v m b c).2).indep
        = c.indep + ((analyzeDependTypes v m b ⟨0, 0, 0⟩).2).indep
    ∧ ((analyzeDependTypes v m b c).2).depShort
        = c.depShort + ((analyzeDependTypes v m b ⟨0, 0, 0⟩).2).depShort
    ∧ ((analyzeDependTypes v m b c).2).depLong
        = c.depLong + ((analyzeDependTypes v m b ⟨0, 0, 0⟩).2).depLong
    ∧ (analyze v pn psz mr mw).1.readBD
        = (analyzeDependTypes v mr true ⟨0, 0, 0⟩).2
    ∧ (analyze v pn psz mr mw).1.writeBD
        = (analyzeDependTypes v mw false ⟨0, 0, 0⟩).2 := by
  rw [analyzeDependTypes_eq, analyzeDependTypes_eq]
  exact ⟨by simp, by simp, by simp, rfl, rfl⟩

/-- Concrete trace for claim C3: a write of 8192 blocks starting at LBA 0,
two reads covering blocks [0, 8190] (pages 0–1), and a read covering block
4096 (page 1 only). -/
def vClaim3 : List TraceData :=
  [⟨0, false, 0, 8192⟩, ⟨1, true, 0, 8191⟩, ⟨2, true, 0, 8191⟩,
   ⟨3, true, 4096, 1⟩]

/-- Claim C3 (counterexample): with `PAGE_SIZE = 4096`, the write with
`startAddress 0` and `lengthBlocks 8192` does not get a two-entry counter
array: the code computes `pageEnd = (0 + 8192) / 4096 = 2` (the spec's own
derived formula), so the span is pages 0–2 and the per-write counter array
has three entries, refuting the claim's "pages 0–1 / exactly two entries". -/
theorem claim3_page_span_counterexample :
    (simulateWrite vClaim3 4096 0 [1, 2]).length = 3
    ∧ pageNumOf vClaim3 4096 0 ≠ 2 := by
  decide

/-- Claim C3 (amended): with `PAGE_SIZE = 4096`, the write spans pages 0–2
under the code's formula, so its counter array has exactly three entries;
with three dependent reads — two spanning pages 0–1 and one spanning page 1
only — the per-page counters are `[2, 3, 0]` and the write contributes one
occurrence each of counts 0, 2 and 3 to the histogram. -/
theorem claim3_example_amended :
    (simulateWrite vClaim3 4096 0 [1, 2, 3]).length = 3
    ∧ simulateWrite vClaim3 4096 0 [1, 2, 3] = [2, 3, 0]
    ∧ histogram (analyzeHotWrite vClaim3 4096 [(0, [1, 2, 3])])
        = [(0, 1), (2, 1), (3, 1)] := by
  decide

/-- Claim C6: for a write and one dependent read, the read loop body
increments by exactly one the counter of every page in the intersection
`[max(writePageStart, readPageStart), min(writePageEnd, readPageEnd)]` of the
two page spans, and leaves every other counter of that write unchanged (index
`j` of the counter array holds the count of page `writePageStart + j`); in
particular a read contributes at most one count per page even when its own
span extends beyond the write's span. -/
theorem claim6_read_increments_overlap (v : List TraceData) (psz w r j : Nat)
    (counts : List Nat) (hlen : counts.length = pageNumOf v psz w)
    (hj : j < counts.length) :
    (readStep v psz (pageStartOf v psz w) (pageEndOf v psz w) counts r).getD
        j 0
      = counts.getD j 0
        + if max (pageStartOf v psz w) (pageStartOf v psz r)
              ≤ pageStartOf v psz w + j
            ∧ pageStartOf v psz w + j
              ≤ min (pageEndOf v psz w) (pageEndOf v psz r)
          then 1 else 0 := by
  have hse := pageStartOf_le_pageEndOf v psz w
  have hos := le_max_left (pageStartOf v psz w) (pageStartOf v psz r)
  have hoe := min_le_left (pageEndOf v psz w) (pageEndOf v psz r)
  unfold pageNumOf at hlen
  show (incrRange counts
      (max (pageStartOf v psz w) (pageStartOf v psz r) - pageStartOf v psz w)
      (((min (pageEndOf v psz w) (pageEndOf v psz r) : Nat) : Int)
        - ((max (pageStartOf v psz w) (pageStartOf v psz r) : Nat) : Int)
        + 1).toNat).getD j 0 = _
  rw [incrRange_getD]
  split_ifs <;> omega

/-- Concrete trace for the C6 witness: a write spanning pages 0–2 and a read
spanning pages 0–1. -/
def vClaim6 : List TraceData :=
  [⟨0, false, 0, 8192⟩, ⟨1, true, 0, 8191⟩]

/-- Witness for C6: page 0 of the write lies in the overlap with the read,
so its counter is incremented from 0 to 1. -/
theorem claim6_read_increments_overlap_inst :
    (readStep vClaim6 4096 (pageStartOf vClaim6 4096 0)
        (pageEndOf vClaim6 4096 0) [0, 0, 0] 1).getD 0 0
      = List.getD [0, 0, 0] 0 0
        + if max (pageStartOf vClaim6 4096 0) (pageStartOf vClaim6 4096 1)
              ≤ pageStartOf vClaim6 4096 0 + 0
            ∧ pageStartOf vClaim6 4096 0 + 0
              ≤ min (pageEndOf vClaim6 4096 0) (pageEndOf vClaim6 4096 1)
          then 1 else 0 :=
  claim6_read_increments_overlap vClaim6 4096 0 1 0 [0, 0, 0] (by decide)
    (by decide)

/-- Claim C7: (a) a dependent read whose page span does not intersect the
write's span is a silent no-op — the counter array is returned unchanged, no
error is raised, and the fold simply continues with the next read; (b) every
index `readOffset + i` the loop increments lies within the bounds
`[0, pageCount - 1]` of the per-write counter array. -/
theorem claim7_noop_and_bounds (v : List TraceData) (psz w r : Nat)
    (counts : List Nat) :
    (min (pageEndOf v psz w) (pageEndOf v psz r)
        < max (pageStartOf v psz w) (pageStartOf v psz r) →
      readStep v psz (pageStartOf v psz w) (pageEndOf v psz w) counts r
        = counts)
    ∧ ∀ i : Nat,
        i < (((min (pageEndOf v psz w) (pageEndOf v psz r) : Nat) : Int)
              - ((max (pageStartOf v psz w) (pageStartOf v psz r) : Nat) : Int)
              + 1).toNat →
        max (pageStartOf v psz w) (pageStartOf v psz r) - pageStartOf v psz w
            + i
          < pageNumOf v psz w := by
  constructor
  · intro hlt
    have hn : (((min (pageEndOf v psz w) (pageEndOf v psz r) : Nat) : Int)
        - ((max (pageStartOf v psz w) (pageStartOf v psz r) : Nat) : Int)
        + 1).toNat = 0 := by omega
    show incrRange counts
        (max (pageStartOf v psz w) (pageStartOf v psz r)
          - pageStartOf v psz w)
        (((min (pageEndOf v psz w) (pageEndOf v psz r) : Nat) : Int)
          - ((max (pageStartOf v psz w) (pageStartOf v psz r) : Nat) : Int)
          + 1).toNat = counts
    rw [hn]
    rfl
  · intro i hi
    have hse := pageStartOf_le_pageEndOf v psz w
    have hos := le_max_left (pageStartOf v psz w) (pageStartOf v psz r)
    have hoe := min_le_left (pageEndOf v psz w) (pageEndOf v psz r)
    unfold pageNumOf
    omega

/-- Concrete trace for the C7 witness: a write on page 0, a read on page 2
(disjoint from the write) and a read on page 0 (overlapping it). -/
def vClaim7 : List TraceData :=
  [⟨0, false, 0, 1⟩, ⟨1, true, 8192, 1⟩, ⟨2, true, 0, 1⟩]

/-- Witness for C7: the disjoint read leaves the counter array untouched,
and the overlapping read's single incremented index is in bounds. -/
theorem claim7_noop_and_bounds_inst :
    readStep vClaim7 4096 (pageStartOf vClaim7 4096 0)
        (pageEndOf vClaim7 4096 0) [0] 1 = [0]
    ∧ max (pageStartOf vClaim7 4096 0) (pageStartOf vClaim7 4096 2)
          - pageStartOf vClaim7 4096 0 + 0
        < pageNumOf vClaim7 4096 0 :=
  ⟨(claim7_noop_and_bounds vClaim7 4096 0 1 [0]).1 (by decide),
   (claim7_noop_and_bounds vClaim7 4096 0 2 [0]).2 0 (by decide)⟩
